import Mathlib

/-!
Verification of the Boreas host-liveness detection engine
(`src/boreas/alivedetection.c`).

The development shallowly embeds the engine's data model and the operations
reachable from `start_alive_detection`:

* `ScanRestrictions`, `HostsData` and the `EngineState` record mirror the
  C structs `scan_restrictions` and `hosts_data` together with the downstream
  queue.  GLib hash tables keyed by canonical address strings are embedded as
  duplicate-free `List String` values with `gHashTableAdd` as the
  test-and-insert.
* `handle_scan_restrictions`, `got_packet`, the `scan` dispatch,
  `send_dead_hosts_to_ospd_openvas`, `fill_ports_array` and
  `alive_detection_init`'s restriction and port initialisation are translated
  from the C source.
* Machine integers (`int`) are embedded as `Int`; the counters involved stay
  far from `2^31`, so wrap-around is not modelled.
* Code of the repository that the engine calls but that is not part of the
  two source files (the `boreas_io.c` queue primitives and the
  `base/networking.c` port-range parser) is modelled from the specification;
  each such definition carries a doc comment starting with
  `Modelled from the spec:`.
* Frame parsing in `got_packet` (the fixed byte offsets) is abstracted: a
  captured packet is represented by the canonical source-address string that
  the C code extracts from it.  Everything from that string on is translated
  from the source.
* The run is sequentialised: the sender loops do not mutate the engine state
  (only the sniffer callback does), so a run is embedded as the probe plan of
  the dispatch, then the fold of the sniffer callback over the list of
  captured source addresses, then the end-of-scan reporting.
-/

/-- Items the engine publishes downstream: alive hosts and the finish
sentinel go to the main queue (`put_host_on_queue`,
`put_finish_signal_on_queue`), the `DEADHOST` and `ERRMSG` lines go to the
`internal/results` sink.  They are collected in one ordered output list. -/
inductive Artifact where
  | host (addr : String)
  | finish
  | deadhostMsg (n : Nat)
  | errMsg (notChecked : Nat)
deriving DecidableEq, Repr

/-- Embedding of `struct scan_restrictions` (alivedetection.c lines 73-88). -/
structure ScanRestrictions where
  max_scan_hosts : Int
  max_alive_hosts : Int
  alive_hosts_count : Int
  max_scan_hosts_reached : Bool
  max_alive_hosts_reached : Bool
deriving DecidableEq, Repr

/-- Embedding of `struct hosts_data` (alivedetection.c lines 94-106): the
alive-seen set, the target key set, and the deferred-publish set
(`alivehosts_not_to_be_sent_to_openvas`).  Target handles (`gvm_host_t *`)
are owned by the caller and irrelevant here, so only the keys are kept. -/
structure HostsData where
  alivehosts : List String
  targethosts : List String
  alivehosts_not_to_be_sent_to_openvas : List String
deriving DecidableEq, Repr

/-- The engine state visible to the claims: the restriction record, the hash
tables, the once-flag of the finish signal, and the ordered list of published
artifacts. -/
structure EngineState where
  restrictions : ScanRestrictions
  hosts : HostsData
  finishSent : Bool
  out : List Artifact
deriving DecidableEq, Repr

/-- Embedding of `g_hash_table_add` on a key set: returns the new set and
whether the key was newly inserted (`TRUE` iff the key was not present). -/
def gHashTableAdd (l : List String) (k : String) : List String × Bool :=
  if k ∈ l then (l, false) else (l ++ [k], true)

/-- Key-set insert discarding the was-new flag (also used for
`g_hash_table_insert` on `targethosts`, whose value part is dropped). -/
def gHashTableAddKey (l : List String) (k : String) : List String :=
  (gHashTableAdd l k).1

/-- Modelled from the spec: `put_host_on_queue` (boreas_io.c, not under
src/) — "publish_host(addr_text) — enqueue an alive address". -/
def put_host_on_queue (s : EngineState) (addr : String) : EngineState :=
  { s with out := s.out ++ [Artifact.host addr] }

/-- Modelled from the spec: `put_finish_signal_on_queue` (boreas_io.c, not
under src/) — "publish_finish() — enqueue the finish sentinel exactly once".
The sentinel is enqueued only if it has not been enqueued before in this
run. -/
def put_finish_signal_on_queue (s : EngineState) : EngineState :=
  if s.finishSent then s
  else { s with finishSent := true, out := s.out ++ [Artifact.finish] }

/-- Embedding of `handle_scan_restrictions` (alivedetection.c lines
206-233): increment `alive_hosts_count`; publish the address unless
`max_scan_hosts_reached`, else defer it; on crossing `max_scan_hosts` set the
flag and publish the finish signal; on reaching `max_alive_hosts` set
`max_alive_hosts_reached`.  The non-fatal `g_debug` on a finish-publish
failure has no state effect and is not modelled. -/
def handle_scan_restrictions (s : EngineState) (addr_str : String) : EngineState :=
  let s1 : EngineState :=
    { s with restrictions :=
        { s.restrictions with alive_hosts_count := s.restrictions.alive_hosts_count + 1 } }
  let s2 : EngineState :=
    if s1.restrictions.max_scan_hosts_reached = false then
      put_host_on_queue s1 addr_str
    else
      { s1 with hosts :=
          { s1.hosts with alivehosts_not_to_be_sent_to_openvas :=
              gHashTableAddKey s1.hosts.alivehosts_not_to_be_sent_to_openvas addr_str } }
  let s3 : EngineState :=
    if s2.restrictions.max_scan_hosts_reached = false
        ∧ s2.restrictions.alive_hosts_count = s2.restrictions.max_scan_hosts then
      put_finish_signal_on_queue
        { s2 with restrictions := { s2.restrictions with max_scan_hosts_reached := true } }
    else s2
  if s3.restrictions.alive_hosts_count = s3.restrictions.max_alive_hosts then
    { s3 with restrictions := { s3.restrictions with max_alive_hosts_reached := true } }
  else s3

/-- Embedding of the pcap callback `got_packet` (alivedetection.c lines
248-330).  The IPv4/IPv6/ARP branches differ only in how the source address
is extracted from the frame; extraction is abstracted to the resulting
canonical address string, after which all three branches perform the same
test-and-insert into `alivehosts`, the target-membership test, and the call
to `handle_scan_restrictions`.  Processing stops once
`max_alive_hosts_reached` is set. -/
def got_packet (s : EngineState) (packet_src : String) : EngineState :=
  if s.restrictions.max_alive_hosts_reached = true then s
  else
    let p := gHashTableAdd s.hosts.alivehosts packet_src
    let s1 : EngineState := { s with hosts := { s.hosts with alivehosts := p.1 } }
    if p.2 = true ∧ packet_src ∈ s1.hosts.targethosts then
      handle_scan_restrictions s1 packet_src
    else s1

/-- The five alive-test method flags (`alive_test_t`).  The C type is a
bitset over distinct flags; since the `scan` dispatch only ever compares the
whole bitset for equality, it is embedded as a record of five booleans,
where record equality coincides with bitset equality. -/
structure AliveTest where
  tcp_ack_service : Bool
  icmp : Bool
  arp : Bool
  consider_alive : Bool
  tcp_syn_service : Bool
deriving DecidableEq, Repr

/-- Method bitset `ALIVE_TEST_TCP_ACK_SERVICE | ALIVE_TEST_ICMP | ALIVE_TEST_ARP`. -/
def comboTcpIcmpArp : AliveTest := ⟨true, true, true, false, false⟩
/-- Method bitset `ALIVE_TEST_TCP_ACK_SERVICE | ALIVE_TEST_ARP`. -/
def comboTcpArp : AliveTest := ⟨true, false, true, false, false⟩
/-- Method bitset `ALIVE_TEST_ICMP | ALIVE_TEST_ARP`. -/
def comboIcmpArp : AliveTest := ⟨false, true, true, false, false⟩
/-- Method bitset `ALIVE_TEST_ICMP | ALIVE_TEST_TCP_ACK_SERVICE`. -/
def comboIcmpTcp : AliveTest := ⟨true, true, false, false, false⟩
/-- Method bitset `ALIVE_TEST_ARP`. -/
def comboArp : AliveTest := ⟨false, false, true, false, false⟩
/-- Method bitset `ALIVE_TEST_TCP_ACK_SERVICE`. -/
def comboTcp : AliveTest := ⟨true, false, false, false, false⟩
/-- Method bitset `ALIVE_TEST_TCP_SYN_SERVICE`. -/
def comboSyn : AliveTest := ⟨false, false, false, false, true⟩
/-- Method bitset `ALIVE_TEST_ICMP`. -/
def comboIcmp : AliveTest := ⟨false, true, false, false, false⟩
/-- Method bitset `ALIVE_TEST_CONSIDER_ALIVE`. -/
def comboConsiderAlive : AliveTest := ⟨false, false, false, true, false⟩

/-- The nine exact bitset values the `scan` dispatch (alivedetection.c lines
620-768) compares `alive_test` against, in source order. -/
def handledCombos : List AliveTest :=
  [comboTcpIcmpArp, comboTcpArp, comboIcmpArp, comboIcmpTcp,
   comboArp, comboTcp, comboSyn, comboIcmp, comboConsiderAlive]

/-- The three probe senders iterated by the `scan` dispatch: `send_tcp`
(both the ACK and the SYN flag variant), `send_icmp`, `send_arp`. -/
inductive ProbeMethod where
  | tcp
  | icmp
  | arp
deriving DecidableEq, Repr

/-- One probe emission: a method applied to one target key. -/
structure Probe where
  method : ProbeMethod
  target : String
deriving DecidableEq, Repr

/-- The per-branch order of the probe loops in the `scan` dispatch
(alivedetection.c lines 620-768), one equality test per C `else if` in
source order.  A bitset equal to none of the nine combinations reaches no
branch and sends nothing.  The `ALIVE_TEST_CONSIDER_ALIVE` branch sends no
probes (it is handled by `consider_alive_loop`). -/
def scan_method_order (alive_test : AliveTest) : List ProbeMethod :=
  if alive_test = comboTcpIcmpArp then [.tcp, .icmp, .arp]
  else if alive_test = comboTcpArp then [.tcp, .arp]
  else if alive_test = comboIcmpArp then [.icmp, .arp]
  else if alive_test = comboIcmpTcp then [.icmp, .tcp]
  else if alive_test = comboArp then [.arp]
  else if alive_test = comboTcp then [.tcp]
  else if alive_test = comboSyn then [.tcp]
  else if alive_test = comboIcmp then [.icmp]
  else []

/-- The probe emissions of a scan: for each method loop of the reached
dispatch branch, in order, one probe per target.  The loops mutate no engine
state; their exit test on `max_alive_hosts_reached` reads a flag that only
the sniffer callback sets, so in the sequentialised run it stays at its
initial `false` and the loops run to completion. -/
def scan_probe_plan (alive_test : AliveTest) (targets : List String) : List Probe :=
  ((scan_method_order alive_test).map
    (fun m => targets.map (fun h => { method := m, target := h : Probe }))).flatten

/-- Embedding of the `ALIVE_TEST_CONSIDER_ALIVE` branch of `scan`
(alivedetection.c lines 758-768): iterate the target keys while
`max_alive_hosts_reached` is not set, calling `handle_scan_restrictions` on
each key and counting it as checked.  The target key is not inserted into
`alivehosts`. -/
def consider_alive_loop : List String → EngineState → Nat → EngineState × Nat
  | [], s, checked => (s, checked)
  | key :: rest, s, checked =>
    if s.restrictions.max_alive_hosts_reached = true then (s, checked)
    else consider_alive_loop rest (handle_scan_restrictions s key) (checked + 1)

/-- Embedding of the hashtable-callback `exclude` (alivedetection.c lines
367-373): remove one key from a key set. -/
def exclude (hashtable : List String) (key : String) : List String :=
  hashtable.filter (fun a => a != key)

/-- Embedding of `send_dead_hosts_to_ospd_openvas` (alivedetection.c lines
516-564): remove every deferred-publish key from `alivehosts`
(`g_hash_table_foreach (alivehosts_not_to_be_sent_to_openvas, exclude, alivehosts)`),
then count the targets absent from the remaining `alivehosts`.  Returns the
mutated tables and `count_dead_ips`; the caller records the `DEADHOST`
artifact.  The Redis connection is modelled as always available. -/
def send_dead_hosts_to_ospd_openvas (hd : HostsData) : HostsData × Nat :=
  let alive2 := hd.alivehosts_not_to_be_sent_to_openvas.foldl exclude hd.alivehosts
  let count_dead_ips := (hd.targethosts.filter (fun h => !(decide (h ∈ alive2)))).length
  ({ hd with alivehosts := alive2 }, count_dead_ips)

/-- Embedding of `range_t` as consumed by `fill_ports_array`: start and end
port of one range and the exclude flag.  A single-port entry is represented
with `end_ = 0`, the convention `fill_ports_array` tests for. -/
structure RangeT where
  start : Int
  end_ : Int
  exclude : Bool
deriving DecidableEq, Repr

/-- Split a character list at every occurrence of the separator. -/
def splitOnSep (sep : Char) : List Char → List (List Char)
  | [] => [[]]
  | c :: cs =>
    let rest := splitOnSep sep cs
    if c = sep then [] :: rest
    else
      match rest with
      | [] => [[c]]
      | chunk :: chunks => (c :: chunk) :: chunks

/-- Numeric value of a non-empty all-digit character list. -/
def digitsVal (cs : List Char) : Option Nat :=
  if cs.isEmpty then none
  else
    cs.foldl
      (fun acc c =>
        acc.bind (fun n => if c.isDigit then some (n * 10 + (c.toNat - 48)) else none))
      (some 0)

/-- One token of a port-range string: either a single port `n` or a dash
range `a-b`, ports within 1..65535. -/
def parsePortToken (cs : List Char) : Option RangeT :=
  match splitOnSep '-' cs with
  | [single] =>
    (digitsVal single).bind fun n =>
      if 0 < n ∧ n ≤ 65535 then some ⟨(n : Int), 0, false⟩ else none
  | [a, b] =>
    (digitsVal a).bind fun x =>
      (digitsVal b).bind fun y =>
        if 0 < x ∧ x ≤ y ∧ y ≤ 65535 then some ⟨(x : Int), (y : Int), false⟩ else none
  | _ => none

/-- Parse a comma-separated port-range string into its list of ranges, or
fail when any token is malformed. -/
def parsePortList (s : String) : Option (List RangeT) :=
  (splitOnSep ',' s.toList).foldr
    (fun tok acc => acc.bind fun rs => (parsePortToken tok).map (· :: rs))
    (some [])

/-- Modelled from the spec: `validate_port_range` (base/networking.c, not
under src/).  The C function returns nonzero exactly when the supplied
port-range string is invalid; the spec describes port lists as
comma-separated single ports or dash ranges of 16-bit ports.  Returns `true`
when the range is invalid, mirroring the C truth value used at the call
site. -/
def validate_port_range (port_range : String) : Bool :=
  (parsePortList port_range).isNone

/-- Modelled from the spec: `port_range_ranges` (base/networking.c, not
under src/) turns an already validated port-range string into its list of
`range_t` entries, in order. -/
def port_range_ranges (port_range : String) : List RangeT :=
  (parsePortList port_range).getD []

/-- Embedding of `fill_ports_array` (alivedetection.c lines 903-930): skip
excluded ranges; append the single port when `range_end == 0` or
`range_start == range_end`; otherwise append every port from start to end
inclusive. -/
def fill_ports_array (range : RangeT) (ports_array : List Int) : List Int :=
  if range.exclude then ports_array
  else if range.end_ = 0 ∨ range.start = range.end_ then ports_array ++ [range.start]
  else ports_array ++ (List.range (range.end_ - range.start + 1).toNat).map (fun i => range.start + i)

/-- The preferences the initialisation reads.  `atoi` on the max-host
preferences is abstracted to the parsed integer value.  `alive_test_ports`
is a user-supplied port range for the alive scan: the spec speaks of one,
but no code under src/ ever reads such a preference — the field exists so
that claims about it can be stated. -/
structure Prefs where
  port_range : Option String
  alive_test_ports : Option String
  max_scan_hosts : Option Int
  max_alive_hosts : Option Int
deriving DecidableEq, Repr

/-- C `INT_MAX`, the default of both host caps. -/
def INT_MAX : Int := 2147483647

/-- Embedding of the scan-restriction initialisation in
`alive_detection_init` (alivedetection.c lines 1011-1023): both caps default
to `INT_MAX`, are overridden by their preferences, and `max_alive_hosts` is
raised to `max_scan_hosts` when smaller. -/
def init_restrictions (max_scan_hosts_pref max_alive_hosts_pref : Option Int) :
    ScanRestrictions :=
  let r : ScanRestrictions :=
    { max_scan_hosts := INT_MAX, max_alive_hosts := INT_MAX, alive_hosts_count := 0,
      max_scan_hosts_reached := false, max_alive_hosts_reached := false }
  let r : ScanRestrictions := match max_scan_hosts_pref with
    | some v => { r with max_scan_hosts := v }
    | none => r
  let r : ScanRestrictions := match max_alive_hosts_pref with
    | some v => { r with max_alive_hosts := v }
    | none => r
  if r.max_alive_hosts < r.max_scan_hosts then { r with max_alive_hosts := r.max_scan_hosts }
  else r

/-- Embedding of the port initialisation in `alive_detection_init`
(alivedetection.c lines 986-1009): the port list is the hardcoded literal
`"80,137,587,3128,8081"`; only if that literal failed validation would the
global `port_range` preference be used; the resulting ranges are flattened
into the ports array by `fill_ports_array`. -/
def init_ports (prefs : Prefs) : List Int :=
  let port_list : Option String :=
    if validate_port_range "80,137,587,3128,8081" then prefs.port_range
    else some "80,137,587,3128,8081"
  let portranges_array := match port_list with
    | some s => port_range_ranges s
    | none => []
  portranges_array.foldl (fun ports_array r => fill_ports_array r ports_array) []

/-- Engine state after `alive_detection_init` succeeded: restrictions
initialised from the preferences, target keys inserted in order, and the
other tables and the queue empty. -/
def initState (targets : List String) (prefs : Prefs) : EngineState :=
  { restrictions := init_restrictions prefs.max_scan_hosts prefs.max_alive_hosts
  , hosts :=
      { alivehosts := []
      , targethosts := targets.foldl gHashTableAddKey []
      , alivehosts_not_to_be_sent_to_openvas := [] }
  , finishSent := false
  , out := [] }

/-- Outcome of a whole run: the final state after the cleanup handlers, the
state right after the sniffer was joined (before the end-of-scan reporting
and before `exclude` mutates `alivehosts`), the emitted probes, and the
`number_of_targets_checked` counter. -/
structure RunResult where
  final : EngineState
  afterSniff : EngineState
  probes : List Probe
  targets_checked : Nat
deriving DecidableEq, Repr

/-- The state-changing part of the `scan` dispatch (alivedetection.c lines
620-768): only the `ALIVE_TEST_CONSIDER_ALIVE` branch touches the engine
state; every probe branch leaves it unchanged and checks
`number_of_targets_checked` loop iterations, one per emitted probe.  Returns
the state and `number_of_targets_checked`. -/
def scan_dispatch (alive_test : AliveTest) (s0 : EngineState) : EngineState × Nat :=
  if alive_test = comboConsiderAlive then consider_alive_loop s0.hosts.targethosts s0 0
  else (s0, (scan_probe_plan alive_test s0.hosts.targethosts).length)

/-- The reporting tail of `scan` (alivedetection.c lines 809-851): publish
the `ERRMSG` notice when `max_alive_hosts_reached`, with
`number_of_targets - number_of_targets_checked` clamped at zero, then run
`send_dead_hosts_to_ospd_openvas` and publish the `DEADHOST` count. -/
def scan_report (s2 : EngineState) (number_of_targets checked : Nat) : EngineState :=
  let s3 :=
    if s2.restrictions.max_alive_hosts_reached = true then
      { s2 with out := s2.out ++
          [Artifact.errMsg
            (if number_of_targets ≤ checked then 0 else number_of_targets - checked)] }
    else s2
  let dead := send_dead_hosts_to_ospd_openvas s3.hosts
  { s3 with hosts := dead.1, out := s3.out ++ [Artifact.deadhostMsg dead.2] }

/-- Embedding of `scan` (alivedetection.c lines 576-852) up to its return:
run the dispatch (probe loops, or the consider-alive loop), process the
captured reply sources through `got_packet`, then run the reporting tail.
The finish signal of the cleanup handler is applied by the caller. -/
def scan_run (alive_test : AliveTest) (s0 : EngineState) (trace : List String) :
    RunResult :=
  let step1 := scan_dispatch alive_test s0
  let s2 := trace.foldl got_packet step1.1
  { final := scan_report s2 s0.hosts.targethosts.length step1.2
  , afterSniff := s2
  , probes := scan_probe_plan alive_test s0.hosts.targethosts
  , targets_checked := step1.2 }

/-- How a run of `start_alive_detection` (alivedetection.c lines 1142-1196)
leaves initialisation: `get_alive_test_methods` failed, `alive_detection_init`
failed (socket or kb connection), `open_live` failed inside `scan` (return
-2), or everything needed by the scan came up. -/
inductive InitOutcome where
  | methodErr
  | initErr
  | captureErr
  | ok
deriving DecidableEq, Repr

/-- Engine state before any initialisation has run. -/
def emptyEngineState : EngineState :=
  { restrictions :=
      { max_scan_hosts := 0, max_alive_hosts := 0, alive_hosts_count := 0,
        max_scan_hosts_reached := false, max_alive_hosts_reached := false }
  , hosts := { alivehosts := [], targethosts := [], alivehosts_not_to_be_sent_to_openvas := [] }
  , finishSent := false
  , out := [] }

/-- Embedding of `start_alive_detection` (alivedetection.c lines 1142-1196):
on a method-set or initialisation failure, publish the finish signal and
exit; on a capture-open failure `scan` returns -2 before publishing anything
and the cleanup handler publishes the finish signal; otherwise run the scan
and let the cleanup handler publish the finish signal (a no-op when the
max-scan-hosts cap already published it). -/
def start_alive_detection (outcome : InitOutcome) (alive_test : AliveTest)
    (targets : List String) (prefs : Prefs) (trace : List String) : RunResult :=
  match outcome with
  | .methodErr =>
    let s := put_finish_signal_on_queue emptyEngineState
    { final := s, afterSniff := s, probes := [], targets_checked := 0 }
  | .initErr =>
    let s := put_finish_signal_on_queue emptyEngineState
    { final := s, afterSniff := s, probes := [], targets_checked := 0 }
  | .captureErr =>
    let s := put_finish_signal_on_queue (initState targets prefs)
    { final := s, afterSniff := s, probes := [], targets_checked := 0 }
  | .ok =>
    let r := scan_run alive_test (initState targets prefs) trace
    { r with final := put_finish_signal_on_queue r.final }

/-! ### Field effects of the restriction controller -/

theorem handle_scan_restrictions_alivehosts (s : EngineState) (a : String) :
    (handle_scan_restrictions s a).hosts.alivehosts = s.hosts.alivehosts := by
  simp only [handle_scan_restrictions, put_host_on_queue, put_finish_signal_on_queue]
  repeat' split
  all_goals rfl

theorem handle_scan_restrictions_targethosts (s : EngineState) (a : String) :
    (handle_scan_restrictions s a).hosts.targethosts = s.hosts.targethosts := by
  simp only [handle_scan_restrictions, put_host_on_queue, put_finish_signal_on_queue]
  repeat' split
  all_goals rfl

theorem handle_scan_restrictions_count (s : EngineState) (a : String) :
    (handle_scan_restrictions s a).restrictions.alive_hosts_count
      = s.restrictions.alive_hosts_count + 1 := by
  simp only [handle_scan_restrictions, put_host_on_queue, put_finish_signal_on_queue]
  repeat' split
  all_goals rfl

theorem handle_scan_restrictions_max_scan (s : EngineState) (a : String) :
    (handle_scan_restrictions s a).restrictions.max_scan_hosts
      = s.restrictions.max_scan_hosts := by
  simp only [handle_scan_restrictions, put_host_on_queue, put_finish_signal_on_queue]
  repeat' split
  all_goals rfl

theorem handle_scan_restrictions_max_alive (s : EngineState) (a : String) :
    (handle_scan_restrictions s a).restrictions.max_alive_hosts
      = s.restrictions.max_alive_hosts := by
  simp only [handle_scan_restrictions, put_host_on_queue, put_finish_signal_on_queue]
  repeat' split
  all_goals rfl

theorem handle_scan_restrictions_out_mem (s : EngineState) (x : String) (e : Artifact)
    (he : e ∈ s.out) : e ∈ (handle_scan_restrictions s x).out := by
  simp only [handle_scan_restrictions, put_host_on_queue, put_finish_signal_on_queue]
  repeat' split
  all_goals simp_all [List.mem_append]

theorem handle_scan_restrictions_publishes (s : EngineState) (x : String)
    (h : s.restrictions.max_scan_hosts_reached = false) :
    Artifact.host x ∈ (handle_scan_restrictions s x).out := by
  simp only [handle_scan_restrictions, put_host_on_queue, put_finish_signal_on_queue]
  repeat' split
  all_goals simp_all [List.mem_append]

theorem handle_scan_restrictions_hostCount (s : EngineState) (x a : String) :
    (handle_scan_restrictions s x).out.count (Artifact.host a)
      ≤ s.out.count (Artifact.host a) + (if x = a then 1 else 0) := by
  simp only [handle_scan_restrictions, put_host_on_queue, put_finish_signal_on_queue]
  repeat' split
  all_goals simp_all [List.count_append, List.count_singleton, List.count_cons]

/-! ### The finish-signal once-invariant -/

/-- The finish sentinel occurs in the output exactly once if the once-flag
is set and not at all otherwise. -/
def FinishInv (s : EngineState) : Prop :=
  s.out.count Artifact.finish = (if s.finishSent then 1 else 0)

theorem finishInv_put_host (s : EngineState) (a : String) (h : FinishInv s) :
    FinishInv (put_host_on_queue s a) := by
  unfold FinishInv at *
  simp_all [put_host_on_queue, List.count_append]

theorem finishInv_put_finish (s : EngineState) (h : FinishInv s) :
    FinishInv (put_finish_signal_on_queue s) := by
  unfold FinishInv at *
  unfold put_finish_signal_on_queue
  split
  all_goals simp_all [List.count_append]

theorem put_finish_count_one (s : EngineState) (h : FinishInv s) :
    (put_finish_signal_on_queue s).out.count Artifact.finish = 1 := by
  unfold FinishInv at h
  unfold put_finish_signal_on_queue
  split
  all_goals simp_all [List.count_append]

theorem finishInv_handle (s : EngineState) (a : String) (h : FinishInv s) :
    FinishInv (handle_scan_restrictions s a) := by
  unfold FinishInv at *
  simp only [handle_scan_restrictions, put_host_on_queue, put_finish_signal_on_queue]
  repeat' split
  all_goals simp_all [List.count_append]

theorem finishInv_got_packet (s : EngineState) (a : String) (h : FinishInv s) :
    FinishInv (got_packet s a) := by
  simp only [got_packet]
  repeat' split
  · exact h
  · exact finishInv_handle _ a h
  · exact h

theorem finishInv_sniff (trace : List String) (s : EngineState) (h : FinishInv s) :
    FinishInv (trace.foldl got_packet s) := by
  induction trace generalizing s with
  | nil => exact h
  | cons x xs ih => exact ih _ (finishInv_got_packet s x h)

theorem finishInv_consider (keys : List String) (s : EngineState) (n : Nat)
    (h : FinishInv s) : FinishInv (consider_alive_loop keys s n).1 := by
  induction keys generalizing s n with
  | nil => exact h
  | cons k ks ih =>
    unfold consider_alive_loop
    split
    · exact h
    · exact ih _ _ (finishInv_handle s k h)

/-! ### Preservation of the configured caps and of the target table -/

theorem got_packet_max_scan (s : EngineState) (a : String) :
    (got_packet s a).restrictions.max_scan_hosts = s.restrictions.max_scan_hosts := by
  simp only [got_packet]
  repeat' split
  · rfl
  · exact handle_scan_restrictions_max_scan _ a
  · rfl

theorem got_packet_max_alive (s : EngineState) (a : String) :
    (got_packet s a).restrictions.max_alive_hosts = s.restrictions.max_alive_hosts := by
  simp only [got_packet]
  repeat' split
  · rfl
  · exact handle_scan_restrictions_max_alive _ a
  · rfl

theorem got_packet_targethosts (s : EngineState) (a : String) :
    (got_packet s a).hosts.targethosts = s.hosts.targethosts := by
  simp only [got_packet]
  repeat' split
  · rfl
  · exact handle_scan_restrictions_targethosts _ a
  · rfl

theorem sniff_max_scan (trace : List String) (s : EngineState) :
    (trace.foldl got_packet s).restrictions.max_scan_hosts
      = s.restrictions.max_scan_hosts := by
  induction trace generalizing s with
  | nil => rfl
  | cons x xs ih => rw [List.foldl_cons, ih, got_packet_max_scan]

theorem sniff_max_alive (trace : List String) (s : EngineState) :
    (trace.foldl got_packet s).restrictions.max_alive_hosts
      = s.restrictions.max_alive_hosts := by
  induction trace generalizing s with
  | nil => rfl
  | cons x xs ih => rw [List.foldl_cons, ih, got_packet_max_alive]

theorem sniff_targethosts (trace : List String) (s : EngineState) :
    (trace.foldl got_packet s).hosts.targethosts = s.hosts.targethosts := by
  induction trace generalizing s with
  | nil => rfl
  | cons x xs ih => rw [List.foldl_cons, ih, got_packet_targethosts]

theorem consider_max_scan (keys : List String) (s : EngineState) (n : Nat) :
    (consider_alive_loop keys s n).1.restrictions.max_scan_hosts
      = s.restrictions.max_scan_hosts := by
  induction keys generalizing s n with
  | nil => rfl
  | cons k ks ih =>
    unfold consider_alive_loop
    split
    · rfl
    · rw [ih, handle_scan_restrictions_max_scan]

theorem consider_max_alive (keys : List String) (s : EngineState) (n : Nat) :
    (consider_alive_loop keys s n).1.restrictions.max_alive_hosts
      = s.restrictions.max_alive_hosts := by
  induction keys generalizing s n with
  | nil => rfl
  | cons k ks ih =>
    unfold consider_alive_loop
    split
    · rfl
    · rw [ih, handle_scan_restrictions_max_alive]

theorem consider_targethosts (keys : List String) (s : EngineState) (n : Nat) :
    (consider_alive_loop keys s n).1.hosts.targethosts = s.hosts.targethosts := by
  induction keys generalizing s n with
  | nil => rfl
  | cons k ks ih =>
    unfold consider_alive_loop
    split
    · rfl
    · rw [ih, handle_scan_restrictions_targethosts]

theorem consider_alivehosts (keys : List String) (s : EngineState) (n : Nat) :
    (consider_alive_loop keys s n).1.hosts.alivehosts = s.hosts.alivehosts := by
  induction keys generalizing s n with
  | nil => rfl
  | cons k ks ih =>
    unfold consider_alive_loop
    split
    · rfl
    · rw [ih, handle_scan_restrictions_alivehosts]

/-! ### The dedup invariants of the sniffer phase -/

/-- Invariant of the sniffer phase: `alive_hosts_count` equals the number of
alive-seen addresses that are targets. -/
def CountInv (s : EngineState) : Prop :=
  s.restrictions.alive_hosts_count =
    ((s.hosts.alivehosts.filter (fun a => decide (a ∈ s.hosts.targethosts))).length : Int)

theorem countInv_got_packet (s : EngineState) (x : String) (h : CountInv s) :
    CountInv (got_packet s x) := by
  unfold CountInv at *
  by_cases hcap : s.restrictions.max_alive_hosts_reached = true
  · simp [got_packet, hcap]
    exact h
  · by_cases hx : x ∈ s.hosts.alivehosts
    · simp [got_packet, gHashTableAdd, hcap, hx]
      exact h
    · by_cases ht : x ∈ s.hosts.targethosts
      · simp [got_packet, gHashTableAdd, hcap, hx, ht]
        rw [handle_scan_restrictions_count, handle_scan_restrictions_alivehosts,
          handle_scan_restrictions_targethosts]
        simp [List.filter_append, ht, h]
      · simp [got_packet, gHashTableAdd, hcap, hx, ht]
        simp [List.filter_append, ht, h]

theorem countInv_sniff (trace : List String) (s : EngineState) (h : CountInv s) :
    CountInv (trace.foldl got_packet s) := by
  induction trace generalizing s with
  | nil => exact h
  | cons x xs ih => exact ih _ (countInv_got_packet s x h)

/-- Invariant of the sniffer phase: an address occurs as a published host at
most once, and only if it is in the alive-seen set. -/
def PubInv (s : EngineState) : Prop :=
  ∀ a : String, s.out.count (Artifact.host a) ≤ (if a ∈ s.hosts.alivehosts then 1 else 0)

theorem pubInv_got_packet (s : EngineState) (x : String) (h : PubInv s) :
    PubInv (got_packet s x) := by
  intro a
  by_cases hcap : s.restrictions.max_alive_hosts_reached = true
  · simp [got_packet, hcap]
    exact h a
  · by_cases hx : x ∈ s.hosts.alivehosts
    · simp [got_packet, gHashTableAdd, hcap, hx]
      exact h a
    · by_cases ht : x ∈ s.hosts.targethosts
      · simp [got_packet, gHashTableAdd, hcap, hx, ht]
        refine le_trans (handle_scan_restrictions_hostCount _ x a) ?_
        rw [handle_scan_restrictions_alivehosts]
        dsimp
        rcases eq_or_ne x a with rfl | hxa
        · have hz := h x
          simp [hx] at hz
          simp [hz, List.mem_append]
        · have hb := h a
          by_cases ha : a ∈ s.hosts.alivehosts
          all_goals simp [ha, hxa, Ne.symm hxa, List.mem_append] at hb ⊢
          all_goals omega
      · simp [got_packet, gHashTableAdd, hcap, hx, ht]
        have hb := h a
        by_cases ha : a ∈ s.hosts.alivehosts
        all_goals simp [ha, List.mem_append] at hb ⊢
        all_goals omega

theorem pubInv_sniff (trace : List String) (s : EngineState) (h : PubInv s) :
    PubInv (trace.foldl got_packet s) := by
  induction trace generalizing s with
  | nil => exact h
  | cons x xs ih => exact ih _ (pubInv_got_packet s x h)

/-! ### Exact characterisation of the restriction controller -/

/-- When the scan cap is not yet reached and the incremented count misses
`max_scan_hosts`, the controller publishes the address and only updates the
count and possibly the alive-cap flag. -/
theorem handle_eq_published (s : EngineState) (x : String)
    (hr : s.restrictions.max_scan_hosts_reached = false)
    (hne : ¬ s.restrictions.alive_hosts_count + 1 = s.restrictions.max_scan_hosts) :
    handle_scan_restrictions s x =
      { s with
        restrictions := { s.restrictions with
          alive_hosts_count := s.restrictions.alive_hosts_count + 1,
          max_alive_hosts_reached :=
            (s.restrictions.max_alive_hosts_reached
              || decide (s.restrictions.alive_hosts_count + 1
                  = s.restrictions.max_alive_hosts)) },
        out := s.out ++ [Artifact.host x] } := by
  simp only [handle_scan_restrictions, put_host_on_queue, put_finish_signal_on_queue]
  repeat' split
  all_goals simp_all

/-- When the scan cap is not yet reached and the incremented count hits
`max_scan_hosts`, the controller publishes the address, sets the scan-cap
flag and publishes the finish signal right behind the address. -/
theorem handle_eq_cap_hit (s : EngineState) (x : String)
    (hr : s.restrictions.max_scan_hosts_reached = false)
    (heq : s.restrictions.alive_hosts_count + 1 = s.restrictions.max_scan_hosts)
    (hfin : s.finishSent = false) :
    handle_scan_restrictions s x =
      { s with
        restrictions := { s.restrictions with
          alive_hosts_count := s.restrictions.alive_hosts_count + 1,
          max_scan_hosts_reached := true,
          max_alive_hosts_reached :=
            (s.restrictions.max_alive_hosts_reached
              || decide (s.restrictions.alive_hosts_count + 1
                  = s.restrictions.max_alive_hosts)) },
        finishSent := true,
        out := s.out ++ [Artifact.host x, Artifact.finish] } := by
  simp only [handle_scan_restrictions, put_host_on_queue, put_finish_signal_on_queue]
  repeat' split
  all_goals simp_all

/-- When the scan cap is already reached, the controller publishes nothing
and inserts the address into the deferred-publish set. -/
theorem handle_eq_deferred (s : EngineState) (x : String)
    (hr : s.restrictions.max_scan_hosts_reached = true) :
    handle_scan_restrictions s x =
      { s with
        restrictions := { s.restrictions with
          alive_hosts_count := s.restrictions.alive_hosts_count + 1,
          max_alive_hosts_reached :=
            (s.restrictions.max_alive_hosts_reached
              || decide (s.restrictions.alive_hosts_count + 1
                  = s.restrictions.max_alive_hosts)) },
        hosts :=
          { s.hosts with
            alivehosts_not_to_be_sent_to_openvas :=
              gHashTableAddKey s.hosts.alivehosts_not_to_be_sent_to_openvas x } } := by
  simp only [handle_scan_restrictions, put_host_on_queue, put_finish_signal_on_queue]
  repeat' split
  all_goals simp_all

/-- Invariant of a run configured with `max_scan_hosts = 0`: the scan cap is
never marked reached, no finish signal has been sent, and every alive-seen
target has been published. -/
def ScanCapZeroInv (s : EngineState) : Prop :=
  s.restrictions.max_scan_hosts = 0 ∧
  0 ≤ s.restrictions.alive_hosts_count ∧
  s.restrictions.max_scan_hosts_reached = false ∧
  s.finishSent = false ∧
  (∀ a, a ∈ s.hosts.alivehosts → a ∈ s.hosts.targethosts → Artifact.host a ∈ s.out)

theorem scanCapZero_handle (s : EngineState) (x : String) (h : ScanCapZeroInv s) :
    ScanCapZeroInv (handle_scan_restrictions s x)
    ∧ Artifact.host x ∈ (handle_scan_restrictions s x).out := by
  obtain ⟨h0, hc, hr, hf, hmem⟩ := h
  have hne : ¬ s.restrictions.alive_hosts_count + 1 = s.restrictions.max_scan_hosts := by
    rw [h0]
    omega
  rw [handle_eq_published s x hr hne]
  refine ⟨⟨h0, by dsimp; omega, hr, hf, ?_⟩, by simp⟩
  intro a ha hat
  exact List.mem_append_left _ (hmem a ha hat)

theorem scanCapZero_got_packet (s : EngineState) (x : String) (h : ScanCapZeroInv s) :
    ScanCapZeroInv (got_packet s x) := by
  obtain ⟨h0, hc, hr, hf, hmem⟩ := h
  by_cases hcap : s.restrictions.max_alive_hosts_reached = true
  · simp [got_packet, hcap]
    exact ⟨h0, hc, hr, hf, hmem⟩
  · by_cases hx : x ∈ s.hosts.alivehosts
    · simp [got_packet, gHashTableAdd, hcap, hx]
      exact ⟨h0, hc, hr, hf, hmem⟩
    · by_cases ht : x ∈ s.hosts.targethosts
      · simp [got_packet, gHashTableAdd, hcap, hx, ht]
        have hne : ¬ s.restrictions.alive_hosts_count + 1 = s.restrictions.max_scan_hosts := by
          rw [h0]
          omega
        rw [handle_eq_published
          { s with hosts := { s.hosts with alivehosts := s.hosts.alivehosts ++ [x] } } x hr hne]
        refine ⟨h0, by dsimp; omega, hr, hf, ?_⟩
        intro a ha hat
        dsimp at ha hat ⊢
        rcases List.mem_append.mp ha with ha2 | hax
        · exact List.mem_append_left _ (hmem a ha2 hat)
        · simp at hax
          subst hax
          simp
      · simp [got_packet, gHashTableAdd, hcap, hx, ht]
        refine ⟨h0, hc, hr, hf, ?_⟩
        intro a ha hat
        rcases List.mem_append.mp ha with ha2 | hax
        · exact hmem a ha2 hat
        · simp at hax
          subst hax
          exact absurd hat ht

theorem scanCapZero_sniff (trace : List String) (s : EngineState)
    (h : ScanCapZeroInv s) : ScanCapZeroInv (trace.foldl got_packet s) := by
  induction trace generalizing s with
  | nil => exact h
  | cons x xs ih => exact ih _ (scanCapZero_got_packet s x h)

theorem scanCapZero_consider (keys : List String) (s : EngineState) (n : Nat)
    (h : ScanCapZeroInv s) : ScanCapZeroInv (consider_alive_loop keys s n).1 := by
  induction keys generalizing s n with
  | nil => exact h
  | cons k ks ih =>
    unfold consider_alive_loop
    split
    · exact h
    · exact ih _ _ (scanCapZero_handle s k h).1

/-! ### Transport lemmas through the run phases -/

theorem scan_run_afterSniff (t : AliveTest) (s0 : EngineState) (trace : List String) :
    (scan_run t s0 trace).afterSniff
      = trace.foldl got_packet (scan_dispatch t s0).1 := rfl

theorem scan_run_final (t : AliveTest) (s0 : EngineState) (trace : List String) :
    (scan_run t s0 trace).final
      = scan_report (trace.foldl got_packet (scan_dispatch t s0).1)
          s0.hosts.targethosts.length (scan_dispatch t s0).2 := rfl

theorem start_ok_final (t : AliveTest) (targets : List String) (prefs : Prefs)
    (trace : List String) :
    (start_alive_detection .ok t targets prefs trace).final
      = put_finish_signal_on_queue (scan_run t (initState targets prefs) trace).final := rfl

theorem start_ok_afterSniff (t : AliveTest) (targets : List String) (prefs : Prefs)
    (trace : List String) :
    (start_alive_detection .ok t targets prefs trace).afterSniff
      = (scan_run t (initState targets prefs) trace).afterSniff := rfl

theorem finishInv_initState (targets : List String) (prefs : Prefs) :
    FinishInv (initState targets prefs) := by
  simp [FinishInv, initState]

theorem finishInv_dispatch (t : AliveTest) (s0 : EngineState) (h : FinishInv s0) :
    FinishInv (scan_dispatch t s0).1 := by
  unfold scan_dispatch
  split
  · exact finishInv_consider _ _ _ h
  · exact h

theorem scan_report_finishSent (s2 : EngineState) (n c : Nat) :
    (scan_report s2 n c).finishSent = s2.finishSent := by
  simp only [scan_report]
  split
  all_goals rfl

theorem scan_report_restrictions (s2 : EngineState) (n c : Nat) :
    (scan_report s2 n c).restrictions = s2.restrictions := by
  simp only [scan_report]
  split
  all_goals rfl

theorem scan_report_count (s2 : EngineState) (n c : Nat) (e : Artifact)
    (hh : ∀ m : Nat, e ≠ Artifact.deadhostMsg m) (he : ∀ m : Nat, e ≠ Artifact.errMsg m) :
    (scan_report s2 n c).out.count e = s2.out.count e := by
  simp only [scan_report]
  split
  all_goals simp [List.count_append, List.count_singleton, hh, he]

theorem scan_report_mem (s2 : EngineState) (n c : Nat) (e : Artifact)
    (he : e ∈ s2.out) : e ∈ (scan_report s2 n c).out := by
  simp only [scan_report]
  split
  all_goals simp [List.mem_append, he]

theorem scan_report_deadhost (s2 : EngineState) (n c : Nat) :
    Artifact.deadhostMsg (send_dead_hosts_to_ospd_openvas s2.hosts).2
      ∈ (scan_report s2 n c).out := by
  simp only [scan_report]
  split
  all_goals simp

theorem put_finish_restrictions (s : EngineState) :
    (put_finish_signal_on_queue s).restrictions = s.restrictions := by
  unfold put_finish_signal_on_queue
  split
  all_goals rfl

theorem put_finish_count_host (s : EngineState) (a : String) :
    (put_finish_signal_on_queue s).out.count (Artifact.host a) = s.out.count (Artifact.host a) := by
  unfold put_finish_signal_on_queue
  split
  all_goals simp [List.count_append]

theorem put_finish_mem (s : EngineState) (e : Artifact) (he : e ∈ s.out) :
    e ∈ (put_finish_signal_on_queue s).out := by
  unfold put_finish_signal_on_queue
  split
  all_goals simp [List.mem_append, he]

/-! ### Claims -/

/-- C1: Every run publishes the finish signal exactly once: runs that abort
during initialization (method-set retrieval failure, socket or capture-open
failure) publish it and exit with no other downstream artifact, and runs
that complete publish it exactly once whether or not the max-scan-hosts cap
was reached during the scan. -/
theorem claim_C1_finish_exactly_once (outcome : InitOutcome) (t : AliveTest)
    (targets : List String) (prefs : Prefs) (trace : List String) :
    (start_alive_detection outcome t targets prefs trace).final.out.count Artifact.finish = 1
    ∧ (outcome ≠ InitOutcome.ok →
        (start_alive_detection outcome t targets prefs trace).final.out = [Artifact.finish]) := by
  cases outcome with
  | methodErr =>
    refine ⟨?_, fun _ => ?_⟩
    all_goals simp [start_alive_detection, put_finish_signal_on_queue, emptyEngineState]
  | initErr =>
    refine ⟨?_, fun _ => ?_⟩
    all_goals simp [start_alive_detection, put_finish_signal_on_queue, emptyEngineState]
  | captureErr =>
    refine ⟨?_, fun _ => ?_⟩
    all_goals simp [start_alive_detection, put_finish_signal_on_queue, initState]
  | ok =>
    refine ⟨?_, fun h => absurd rfl h⟩
    rw [start_ok_final, scan_run_final]
    apply put_finish_count_one
    have h0 := finishInv_initState targets prefs
    have h1 := finishInv_dispatch t _ h0
    have h2 := finishInv_sniff trace _ h1
    unfold FinishInv at *
    rw [scan_report_finishSent, scan_report_count]
    · exact h2
    · intro m
      simp
    · intro m
      simp

/-- The four steps of claim C2, stated over the source-translated controller:
(1) the count increments; (2) publish when the scan cap is not reached, else
defer; (3) on hitting `max_scan_hosts` set the flag and publish the finish
signal right after the address; (4) reaching `max_alive_hosts` sets the
alive-cap flag. -/
def HandleScanRestrictionsSpec (s : EngineState) (addr : String) : Prop :=
  (handle_scan_restrictions s addr).restrictions.alive_hosts_count
      = s.restrictions.alive_hosts_count + 1
  ∧ (s.restrictions.max_scan_hosts_reached = false →
      (handle_scan_restrictions s addr).hosts.alivehosts_not_to_be_sent_to_openvas
          = s.hosts.alivehosts_not_to_be_sent_to_openvas
      ∧ (s.restrictions.alive_hosts_count + 1 = s.restrictions.max_scan_hosts →
          (handle_scan_restrictions s addr).out
              = s.out ++ [Artifact.host addr, Artifact.finish]
          ∧ (handle_scan_restrictions s addr).restrictions.max_scan_hosts_reached = true)
      ∧ (¬ s.restrictions.alive_hosts_count + 1 = s.restrictions.max_scan_hosts →
          (handle_scan_restrictions s addr).out = s.out ++ [Artifact.host addr]
          ∧ (handle_scan_restrictions s addr).restrictions.max_scan_hosts_reached = false))
  ∧ (s.restrictions.max_scan_hosts_reached = true →
      (handle_scan_restrictions s addr).out = s.out
      ∧ (handle_scan_restrictions s addr).hosts.alivehosts_not_to_be_sent_to_openvas
          = gHashTableAddKey s.hosts.alivehosts_not_to_be_sent_to_openvas addr
      ∧ (handle_scan_restrictions s addr).restrictions.max_scan_hosts_reached = true)
  ∧ (handle_scan_restrictions s addr).restrictions.max_alive_hosts_reached
      = (s.restrictions.max_alive_hosts_reached
          || decide (s.restrictions.alive_hosts_count + 1
              = s.restrictions.max_alive_hosts))

/-- C2: On each mark_alive that returns was_new and whose source address is
in the target table, the restriction controller performs exactly these steps
in order: (1) increments alive_count by 1; (2) if scan_cap_reached is false,
publishes the address to the output queue, otherwise inserts it into the
deferred-publish set; (3) if scan_cap_reached is false and alive_count
equals max_scan_hosts, sets scan_cap_reached and publishes the finish
signal, treating a finish-publish failure as a non-fatal diagnostic; (4) if
alive_count equals max_alive_hosts, sets alive_cap_reached.  (The
finish-publish failure path has no state effect; the hypothesis states that
no finish signal was published before, which holds whenever the controller
runs with the scan cap not yet reached.) -/
theorem claim_C2_restriction_controller_steps (s : EngineState) (addr : String)
    (hfin : s.finishSent = false) : HandleScanRestrictionsSpec s addr := by
  unfold HandleScanRestrictionsSpec
  cases hb : s.restrictions.max_scan_hosts_reached with
  | true =>
    rw [handle_eq_deferred s addr hb]
    simp [hb]
  | false =>
    by_cases heq : s.restrictions.alive_hosts_count + 1 = s.restrictions.max_scan_hosts
    · rw [handle_eq_cap_hit s addr hb heq hfin]
      simp [hb, heq]
    · rw [handle_eq_published s addr hb heq]
      simp [hb, heq]

/-- A concrete controller state: two targets allowed on the queue, five
alive hosts allowed, nothing counted yet. -/
def handleSampleState : EngineState :=
  { restrictions :=
      { max_scan_hosts := 2, max_alive_hosts := 5, alive_hosts_count := 0,
        max_scan_hosts_reached := false, max_alive_hosts_reached := false }
  , hosts :=
      { alivehosts := ["10.0.0.1"], targethosts := ["10.0.0.1"]
      , alivehosts_not_to_be_sent_to_openvas := [] }
  , finishSent := false
  , out := [] }

/-- Witness for C2 at a concrete controller state and address. -/
theorem claim_C2_witness :
    handleSampleState.finishSent = false
    ∧ HandleScanRestrictionsSpec handleSampleState "10.0.0.1" :=
  ⟨rfl, claim_C2_restriction_controller_steps handleSampleState "10.0.0.1" rfl⟩

/-- C5: After initialization normalizes the caps,
max_alive_hosts >= max_scan_hosts holds (if the configured max_alive_hosts is
smaller than max_scan_hosts it is raised to max_scan_hosts), and this
inequality is preserved for the rest of the run (no step of the run writes
either cap); alive_cap_reached implying scan_cap_reached is not required,
witnessed by a run with max_scan_hosts = 0 and max_alive_hosts = 2 that ends
with the alive cap reached and the scan cap not reached. -/
theorem claim_C5_cap_normalization :
    (∀ msp map_ : Option Int,
        (init_restrictions msp map_).max_scan_hosts
          ≤ (init_restrictions msp map_).max_alive_hosts)
    ∧ (∀ (s : EngineState) (a : String),
        (got_packet s a).restrictions.max_scan_hosts = s.restrictions.max_scan_hosts
        ∧ (got_packet s a).restrictions.max_alive_hosts = s.restrictions.max_alive_hosts)
    ∧ (∀ (keys : List String) (s : EngineState) (n : Nat),
        (consider_alive_loop keys s n).1.restrictions.max_scan_hosts
            = s.restrictions.max_scan_hosts
        ∧ (consider_alive_loop keys s n).1.restrictions.max_alive_hosts
            = s.restrictions.max_alive_hosts)
    ∧ (∀ (s2 : EngineState) (n c : Nat), (scan_report s2 n c).restrictions = s2.restrictions)
    ∧ (∀ s : EngineState, (put_finish_signal_on_queue s).restrictions = s.restrictions)
    ∧ ((start_alive_detection .ok comboIcmp ["10.0.0.1", "10.0.0.2"]
          { port_range := none, alive_test_ports := none,
            max_scan_hosts := some 0, max_alive_hosts := some 2 }
          ["10.0.0.1", "10.0.0.2"]).afterSniff.restrictions.max_alive_hosts_reached = true
        ∧ (start_alive_detection .ok comboIcmp ["10.0.0.1", "10.0.0.2"]
            { port_range := none, alive_test_ports := none,
              max_scan_hosts := some 0, max_alive_hosts := some 2 }
            ["10.0.0.1", "10.0.0.2"]).afterSniff.restrictions.max_scan_hosts_reached = false) := by
  refine ⟨?_, fun s a => ⟨got_packet_max_scan s a, got_packet_max_alive s a⟩,
    fun k s n => ⟨consider_max_scan k s n, consider_max_alive k s n⟩,
    scan_report_restrictions, put_finish_restrictions, by decide⟩
  intro msp map_
  cases msp <;> cases map_ <;>
    simp only [init_restrictions] <;> split <;> dsimp <;> omega

/-- Length of the complement filter, used for the dead-host tally. -/
theorem length_filter_not {α : Type} (p : α → Bool) (l : List α) :
    (l.filter (fun a => !(p a))).length = l.length - (l.filter p).length := by
  induction l with
  | nil => rfl
  | cons x xs ih =>
    have hle := List.length_filter_le p xs
    by_cases hx : p x = true
    all_goals simp [List.filter_cons, hx, ih]
    all_goals omega

/-- C3 counterexample: in a run whose only captured reply comes from the
non-target address 192.168.0.5, the claimed formula
|targets| - (|alive_seen| - |deferred_publish|) evaluates to 1 - (1 - 0) = 0,
but the engine publishes a dead count of 1: alive_seen contains an address
that is not a target, so subtracting its cardinality undercounts the dead
targets. -/
theorem claim_C3_counterexample :
    ((start_alive_detection .ok comboIcmp ["10.0.0.1"]
          { port_range := none, alive_test_ports := none,
            max_scan_hosts := none, max_alive_hosts := none }
          ["192.168.0.5"]).afterSniff.hosts.targethosts.length
        - ((start_alive_detection .ok comboIcmp ["10.0.0.1"]
              { port_range := none, alive_test_ports := none,
                max_scan_hosts := none, max_alive_hosts := none }
              ["192.168.0.5"]).afterSniff.hosts.alivehosts.length
            - (start_alive_detection .ok comboIcmp ["10.0.0.1"]
                { port_range := none, alive_test_ports := none,
                  max_scan_hosts := none, max_alive_hosts := none }
                ["192.168.0.5"]).afterSniff.hosts.alivehosts_not_to_be_sent_to_openvas.length)
        = 0)
    ∧ Artifact.deadhostMsg 1 ∈ (start_alive_detection .ok comboIcmp ["10.0.0.1"]
          { port_range := none, alive_test_ports := none,
            max_scan_hosts := none, max_alive_hosts := none }
          ["192.168.0.5"]).final.out
    ∧ Artifact.deadhostMsg 0 ∉ (start_alive_detection .ok comboIcmp ["10.0.0.1"]
          { port_range := none, alive_test_ports := none,
            max_scan_hosts := none, max_alive_hosts := none }
          ["192.168.0.5"]).final.out := by
  decide

/-- C3 (amended): the dead count published at the end equals the number of
targets not contained in alive_seen after the deferred-publish entries are
excluded from it, dead = |targets| - |targets ∩ (alive_seen \\ deferred)|;
the claim's formula |targets| - (|alive_seen| - |deferred|) coincides with
this exactly when every alive-seen address is a target.  The run publishes
exactly this count to the dead-host sink. -/
theorem claim_C3_dead_count :
    (∀ hd : HostsData,
        (send_dead_hosts_to_ospd_openvas hd).2
          = hd.targethosts.length
            - (hd.targethosts.filter
                (fun h => decide
                  (h ∈ hd.alivehosts_not_to_be_sent_to_openvas.foldl exclude hd.alivehosts))).length)
    ∧ (∀ (t : AliveTest) (targets : List String) (prefs : Prefs) (trace : List String),
        Artifact.deadhostMsg
            (send_dead_hosts_to_ospd_openvas
              (start_alive_detection .ok t targets prefs trace).afterSniff.hosts).2
          ∈ (start_alive_detection .ok t targets prefs trace).final.out) := by
  constructor
  · intro hd
    unfold send_dead_hosts_to_ospd_openvas
    exact length_filter_not _ _
  · intro t targets prefs trace
    rw [start_ok_final, scan_run_final, start_ok_afterSniff, scan_run_afterSniff]
    exact put_finish_mem _ _ (scan_report_deadhost _ _ _)

/-- The initialised `max_scan_hosts` is the preference value or `INT_MAX`. -/
theorem init_restrictions_max_scan (msp map_ : Option Int) :
    (init_restrictions msp map_).max_scan_hosts = msp.getD INT_MAX := by
  cases msp <;> cases map_ <;> simp only [init_restrictions] <;> split <;> rfl

/-- The initialised alive count is zero. -/
theorem init_restrictions_count (msp map_ : Option Int) :
    (init_restrictions msp map_).alive_hosts_count = 0 := by
  cases msp <;> cases map_ <;> simp only [init_restrictions] <;> split <;> rfl

/-- The initialised scan-cap flag is false. -/
theorem init_restrictions_scan_flag (msp map_ : Option Int) :
    (init_restrictions msp map_).max_scan_hosts_reached = false := by
  cases msp <;> cases map_ <;> simp only [init_restrictions] <;> split <;> rfl

/-- The initialised alive-cap flag is false. -/
theorem init_restrictions_alive_flag (msp map_ : Option Int) :
    (init_restrictions msp map_).max_alive_hosts_reached = false := by
  cases msp <;> cases map_ <;> simp only [init_restrictions] <;> split <;> rfl

/-- The reporting tail publishes no finish signal. -/
theorem finishInv_report (s2 : EngineState) (n c : Nat) (h : FinishInv s2) :
    FinishInv (scan_report s2 n c) := by
  unfold FinishInv at *
  rw [scan_report_finishSent, scan_report_count]
  · exact h
  · intro m
    simp
  · intro m
    simp

/-- A completed run whose `max_scan_hosts` preference resolves to 0. -/
def runMaxScanZero (t : AliveTest) (targets : List String) (pr ap : Option String)
    (map_ : Option Int) (trace : List String) : RunResult :=
  start_alive_detection .ok t targets
    { port_range := pr, alive_test_ports := ap,
      max_scan_hosts := some 0, max_alive_hosts := map_ } trace

/-- C6 counterexample: with `max_scan_hosts = 0` and one target replying,
the run does publish the host — publishing is suppressed only after
`max_scan_hosts_reached` is set, and the cap equality `alive_count =
max_scan_hosts` never fires because the count is at least 1 whenever it is
checked. -/
theorem claim_C6_counterexample :
    Artifact.host "10.0.0.1" ∈ (start_alive_detection .ok comboIcmp ["10.0.0.1"]
        { port_range := none, alive_test_ports := none,
          max_scan_hosts := some 0, max_alive_hosts := none }
        ["10.0.0.1"]).final.out := by
  decide

/-- C6 (amended): when the resolved configuration has `max_scan_hosts = 0`,
the scan cap is never marked reached, so every alive-seen target IS
published, no finish signal is published during the scan, and the finish
signal is published exactly once at the end of the run. -/
theorem claim_C6_max_scan_zero (t : AliveTest) (targets : List String)
    (pr ap : Option String) (map_ : Option Int) (trace : List String) :
    (runMaxScanZero t targets pr ap map_ trace).afterSniff.restrictions.max_scan_hosts_reached
        = false
    ∧ Artifact.finish ∉ (runMaxScanZero t targets pr ap map_ trace).afterSniff.out
    ∧ (runMaxScanZero t targets pr ap map_ trace).final.out.count Artifact.finish = 1
    ∧ ∀ a ∈ (runMaxScanZero t targets pr ap map_ trace).afterSniff.hosts.alivehosts,
        a ∈ (runMaxScanZero t targets pr ap map_ trace).afterSniff.hosts.targethosts →
        Artifact.host a ∈ (runMaxScanZero t targets pr ap map_ trace).afterSniff.out := by
  have hinv0 : ScanCapZeroInv (initState targets
      { port_range := pr, alive_test_ports := ap,
        max_scan_hosts := some 0, max_alive_hosts := map_ }) := by
    refine ⟨?_, ?_, ?_, rfl, ?_⟩
    · simpa using init_restrictions_max_scan (some 0) map_
    · simp [initState, init_restrictions_count]
    · simp [initState, init_restrictions_scan_flag]
    · intro a ha
      simp [initState] at ha
  have hfin0 := finishInv_initState targets
    { port_range := pr, alive_test_ports := ap,
      max_scan_hosts := some 0, max_alive_hosts := map_ }
  have hinv1 : ScanCapZeroInv (scan_dispatch t (initState targets
      { port_range := pr, alive_test_ports := ap,
        max_scan_hosts := some 0, max_alive_hosts := map_ })).1 := by
    unfold scan_dispatch
    split
    · exact scanCapZero_consider _ _ _ hinv0
    · exact hinv0
  have hfin1 := finishInv_dispatch t _ hfin0
  have hinv2 := scanCapZero_sniff trace _ hinv1
  have hfin2 := finishInv_sniff trace _ hfin1
  obtain ⟨h0, hc, hr, hf, hmem⟩ := hinv2
  unfold runMaxScanZero
  rw [start_ok_afterSniff, scan_run_afterSniff, start_ok_final, scan_run_final]
  refine ⟨hr, ?_, ?_, hmem⟩
  · unfold FinishInv at hfin2
    rw [hf] at hfin2
    simp only [if_neg Bool.false_ne_true] at hfin2
    intro hmemfin
    have := List.count_pos_iff.mpr hmemfin
    omega
  · exact put_finish_count_one _ (finishInv_report _ _ _ hfin2)

/-- Every dispatch branch other than `ALIVE_TEST_CONSIDER_ALIVE` leaves the
engine state unchanged. -/
theorem scan_dispatch_ne (t : AliveTest) (s0 : EngineState)
    (h : ¬ t = comboConsiderAlive) :
    scan_dispatch t s0 = (s0, (scan_probe_plan t s0.hosts.targethosts).length) := by
  unfold scan_dispatch
  rw [if_neg h]

/-- C7, evaluated at the failing input: a CONSIDER_ALIVE run with a single
target, no caps and no captured packets publishes the target as alive, then
reports a dead count of 1 for it — the consider-alive loop calls the
restriction controller without inserting the target into the alive-seen
set, so `send_dead_hosts_to_ospd_openvas` counts every considered-alive
target as dead. -/
theorem claim_C7_consider_alive_run :
    (start_alive_detection .ok comboConsiderAlive ["10.0.0.9"]
        { port_range := none, alive_test_ports := none,
          max_scan_hosts := none, max_alive_hosts := none } []).final.out
      = [Artifact.host "10.0.0.9", Artifact.deadhostMsg 1, Artifact.finish] := by
  decide

/-- C4 counterexample: in a CONSIDER_ALIVE run with one target and no
captured packets, `alive_hosts_count` is 1, but the number of distinct
target addresses observed as reply sources (the alive-seen set restricted
to targets) is 0 — the consider-alive loop bypasses the alive-seen
test-and-insert, so the claimed equality fails for such runs. -/
theorem claim_C4_counterexample :
    ¬ ((start_alive_detection .ok comboConsiderAlive ["10.0.0.9"]
          { port_range := none, alive_test_ports := none,
            max_scan_hosts := none, max_alive_hosts := none }
          []).final.restrictions.alive_hosts_count
        = (((start_alive_detection .ok comboConsiderAlive ["10.0.0.9"]
              { port_range := none, alive_test_ports := none,
                max_scan_hosts := none, max_alive_hosts := none }
              []).afterSniff.hosts.alivehosts.filter
            (fun a => decide (a ∈ (start_alive_detection .ok comboConsiderAlive ["10.0.0.9"]
                { port_range := none, alive_test_ports := none,
                  max_scan_hosts := none, max_alive_hosts := none }
                []).afterSniff.hosts.targethosts))).length : Int)) := by
  decide

/-- C4 (amended): for every run whose method set is not exactly
CONSIDER_ALIVE, every address is published as a host at most once, and
`alive_hosts_count` equals the number of distinct target addresses among the
reply sources processed by the sniffer — the alive-seen test-and-insert
(was_new) together with the target-membership check guarantees the
restriction controller runs at most once per address.  In a CONSIDER_ALIVE
run, `alive_hosts_count` instead counts the targets processed by the
consider-alive loop, which bypasses the alive-seen set. -/
theorem claim_C4_publish_once_and_count (t : AliveTest) (targets : List String)
    (prefs : Prefs) (trace : List String) (hne : ¬ t = comboConsiderAlive) :
    (start_alive_detection .ok t targets prefs trace).final.restrictions.alive_hosts_count
      = (((start_alive_detection .ok t targets prefs
            trace).afterSniff.hosts.alivehosts.filter
          (fun a => decide (a ∈ (start_alive_detection .ok t targets prefs
              trace).afterSniff.hosts.targethosts))).length : Int)
    ∧ ∀ a : String,
        (start_alive_detection .ok t targets prefs trace).final.out.count (Artifact.host a)
          ≤ 1 := by
  have hci : CountInv (initState targets prefs) := by
    unfold CountInv
    simp [initState, init_restrictions_count]
  have hpi : PubInv (initState targets prefs) := by
    intro a
    simp [initState]
  have hc2 : CountInv ((start_alive_detection .ok t targets prefs trace).afterSniff) := by
    rw [start_ok_afterSniff, scan_run_afterSniff, scan_dispatch_ne t _ hne]
    exact countInv_sniff trace _ hci
  have hp2 : PubInv ((start_alive_detection .ok t targets prefs trace).afterSniff) := by
    rw [start_ok_afterSniff, scan_run_afterSniff, scan_dispatch_ne t _ hne]
    exact pubInv_sniff trace _ hpi
  constructor
  · have hres : (start_alive_detection .ok t targets prefs trace).final.restrictions
        = (start_alive_detection .ok t targets prefs trace).afterSniff.restrictions := by
      rw [start_ok_final, scan_run_final, start_ok_afterSniff, scan_run_afterSniff,
        put_finish_restrictions, scan_report_restrictions]
    rw [hres]
    exact hc2
  · intro a
    have hcount : (start_alive_detection .ok t targets prefs trace).final.out.count
          (Artifact.host a)
        = (start_alive_detection .ok t targets prefs trace).afterSniff.out.count
          (Artifact.host a) := by
      rw [start_ok_final, scan_run_final, start_ok_afterSniff, scan_run_afterSniff,
        put_finish_count_host, scan_report_count]
      · intro m
        simp
      · intro m
        simp
    rw [hcount]
    have := hp2 a
    split at this
    all_goals omega

/-- Witness for C4 at an ICMP run with one target replying once. -/
theorem claim_C4_witness :
    (¬ comboIcmp = comboConsiderAlive)
    ∧ ((start_alive_detection .ok comboIcmp ["10.0.0.1"]
          { port_range := none, alive_test_ports := none,
            max_scan_hosts := none, max_alive_hosts := none }
          ["10.0.0.1"]).final.restrictions.alive_hosts_count
        = (((start_alive_detection .ok comboIcmp ["10.0.0.1"]
              { port_range := none, alive_test_ports := none,
                max_scan_hosts := none, max_alive_hosts := none }
              ["10.0.0.1"]).afterSniff.hosts.alivehosts.filter
            (fun a => decide (a ∈ (start_alive_detection .ok comboIcmp ["10.0.0.1"]
                { port_range := none, alive_test_ports := none,
                  max_scan_hosts := none, max_alive_hosts := none }
                ["10.0.0.1"]).afterSniff.hosts.targethosts))).length : Int)
      ∧ ∀ a : String,
          (start_alive_detection .ok comboIcmp ["10.0.0.1"]
            { port_range := none, alive_test_ports := none,
              max_scan_hosts := none, max_alive_hosts := none }
            ["10.0.0.1"]).final.out.count (Artifact.host a) ≤ 1) :=
  ⟨by decide, claim_C4_publish_once_and_count comboIcmp ["10.0.0.1"]
    { port_range := none, alive_test_ports := none,
      max_scan_hosts := none, max_alive_hosts := none }
    ["10.0.0.1"] (by decide)⟩

/-- Position of a probe method in the order TCP, ICMP, ARP that the claim
asserts. -/
def methodRank : ProbeMethod → Nat
  | .tcp => 0
  | .icmp => 1
  | .arp => 2

/-- A relation that holds universally holds pairwise on any list. -/
theorem pairwise_const_true {α : Type} (l : List α) (R : α → α → Prop)
    (h : ∀ a b, R a b) : l.Pairwise R := by
  induction l with
  | nil => exact List.Pairwise.nil
  | cons x xs ih => exact List.Pairwise.cons (fun y _ => h x y) ih

/-- A probe plan made of per-method blocks is ordered by `methodRank`
whenever its method list is. -/
theorem pairwise_probe_blocks (ms : List ProbeMethod) (targets : List String)
    (h : ms.Pairwise (fun a b => methodRank a ≤ methodRank b)) :
    ((ms.map (fun m => targets.map (fun t => ({ method := m, target := t } : Probe)))).flatten).Pairwise
      (fun p q => methodRank p.method ≤ methodRank q.method) := by
  induction ms with
  | nil => simp
  | cons m rest ih =>
    rcases List.pairwise_cons.mp h with ⟨hm, hrest⟩
    simp only [List.map_cons, List.flatten_cons]
    rw [List.pairwise_append]
    refine ⟨?_, ih hrest, ?_⟩
    · rw [List.pairwise_map]
      exact pairwise_const_true _ _ (fun a b => le_refl _)
    · intro p hp q hq
      obtain ⟨tp, _, rfl⟩ := List.mem_map.mp hp
      obtain ⟨blk, hblk, hqblk⟩ := List.mem_flatten.mp hq
      obtain ⟨m2, hm2, rfl⟩ := List.mem_map.mp hblk
      obtain ⟨tq, _, rfl⟩ := List.mem_map.mp hqblk
      exact hm m2 hm2

/-- C8 counterexample: for the enabled combination ICMP + TCP-ACK, the
dispatch branch at alivedetection.c lines 691-711 runs the ICMP loop before
the TCP loop, so the emitted probe sequence for a single target is
[ICMP, TCP], violating the claimed fixed order TCP, then ICMP, then ARP. -/
theorem claim_C8_counterexample :
    ¬ (scan_probe_plan comboIcmpTcp ["10.0.0.1"]).Pairwise
        (fun p q => methodRank p.method ≤ methodRank q.method) := by
  decide

/-- C8 (amended): for every enabled combination the dispatch handles other
than ICMP + TCP-ACK, the probe loops run in the fixed order TCP, then ICMP,
then ARP, each enabled method probing all targets before the next method
starts; the combination ICMP + TCP-ACK is the exception — it emits all ICMP
probes before all TCP probes. -/
theorem claim_C8_method_order (t : AliveTest) (targets : List String)
    (h : ¬ t = comboIcmpTcp) :
    (scan_probe_plan t targets).Pairwise
      (fun p q => methodRank p.method ≤ methodRank q.method)
    ∧ ∀ targets2 : List String,
        scan_probe_plan comboIcmpTcp targets2
          = targets2.map (fun h2 => ({ method := ProbeMethod.icmp, target := h2 } : Probe))
            ++ targets2.map (fun h2 => ({ method := ProbeMethod.tcp, target := h2 } : Probe)) := by
  constructor
  · unfold scan_probe_plan
    apply pairwise_probe_blocks
    unfold scan_method_order
    repeat' split
    all_goals decide
  · intro targets2
    simp [scan_probe_plan, scan_method_order, comboIcmpTcp, comboTcpIcmpArp, comboTcpArp,
      comboIcmpArp]

/-- Witness for C8 at the three-method combination and two targets. -/
theorem claim_C8_witness :
    (¬ comboTcpIcmpArp = comboIcmpTcp)
    ∧ ((scan_probe_plan comboTcpIcmpArp ["10.0.0.1", "10.0.0.2"]).Pairwise
        (fun p q => methodRank p.method ≤ methodRank q.method)
      ∧ ∀ targets2 : List String,
          scan_probe_plan comboIcmpTcp targets2
            = targets2.map (fun h2 => ({ method := ProbeMethod.icmp, target := h2 } : Probe))
              ++ targets2.map (fun h2 => ({ method := ProbeMethod.tcp, target := h2 } : Probe))) :=
  ⟨by decide, claim_C8_method_order comboTcpIcmpArp ["10.0.0.1", "10.0.0.2"] (by decide)⟩

/-- C9 counterexample: with a valid user-supplied alive-scan port range
"1-3" present in the preferences, the initialised TCP probe ports are still
the hardcoded [80, 137, 587, 3128, 8081] and not [1, 2, 3] — no code in
`alive_detection_init` reads a user preference for the alive-scan ports, so
no override happens. -/
theorem claim_C9_counterexample :
    init_ports
        { port_range := some "1-1024", alive_test_ports := some "1-3",
          max_scan_hosts := none, max_alive_hosts := none }
      = [80, 137, 587, 3128, 8081]
    ∧ (port_range_ranges "1-3").foldl (fun pa r => fill_ports_array r pa) [] = [1, 2, 3]
    ∧ ¬ init_ports
        { port_range := some "1-1024", alive_test_ports := some "1-3",
          max_scan_hosts := none, max_alive_hosts := none }
      = [1, 2, 3] := by
  decide

/-- C9 (amended): the TCP probe port list always resolves to the hardcoded
ordered sequence [80, 137, 587, 3128, 8081], whatever the preferences: no
user-supplied alive-scan port range is consulted, and the fallback to the
global scan port range would be taken only if the hardcoded literal failed
validation, which it does not. -/
theorem claim_C9_tcp_ports (prefs : Prefs) :
    init_ports prefs = [80, 137, 587, 3128, 8081]
    ∧ validate_port_range "80,137,587,3128,8081" = false :=
  ⟨rfl, rfl⟩

/-- The probes of a completed run are the dispatch plan over the target
keys. -/
theorem start_ok_probes (t : AliveTest) (targets : List String) (prefs : Prefs)
    (trace : List String) :
    (start_alive_detection .ok t targets prefs trace).probes
      = scan_probe_plan t (initState targets prefs).hosts.targethosts := rfl

/-- A method bitset equal to none of the nine handled combinations reaches
no dispatch branch. -/
theorem scan_method_order_unhandled (t : AliveTest) (h : ¬ t ∈ handledCombos) :
    scan_method_order t = [] := by
  unfold scan_method_order
  repeat' split
  all_goals first
    | rfl
    | simp_all [handledCombos]

/-- C10: the dispatch compares the enabled-method bitset for exact equality
against nine specific combinations; for any other combination (for example
ICMP together with TCP_SYN) no probes are emitted and no host is marked
alive, yet the run still completes, publishes the finish signal exactly
once, and reports every target as dead.  (With no probes in the air, the
run is evaluated on an empty capture trace.) -/
theorem claim_C10_unhandled_combos (t : AliveTest) (targets : List String)
    (prefs : Prefs) (h : ¬ t ∈ handledCombos) :
    (start_alive_detection .ok t targets prefs []).probes = []
    ∧ (start_alive_detection .ok t targets prefs []).afterSniff.hosts.alivehosts = []
    ∧ (start_alive_detection .ok t targets prefs
        []).afterSniff.restrictions.alive_hosts_count = 0
    ∧ (start_alive_detection .ok t targets prefs []).final.out.count Artifact.finish = 1
    ∧ Artifact.deadhostMsg
        (start_alive_detection .ok t targets prefs []).afterSniff.hosts.targethosts.length
      ∈ (start_alive_detection .ok t targets prefs []).final.out := by
  have hne : ¬ t = comboConsiderAlive := by
    intro he
    apply h
    rw [he]
    simp [handledCombos, comboConsiderAlive]
  have hmo := scan_method_order_unhandled t h
  have hsniff : (start_alive_detection .ok t targets prefs []).afterSniff
      = initState targets prefs := by
    rw [start_ok_afterSniff, scan_run_afterSniff, scan_dispatch_ne t _ hne]
    rfl
  refine ⟨?_, ?_, ?_, ?_, ?_⟩
  · rw [start_ok_probes]
    simp [scan_probe_plan, hmo]
  · rw [hsniff]
    rfl
  · rw [hsniff]
    exact init_restrictions_count _ _
  · rw [start_ok_final, scan_run_final]
    exact put_finish_count_one _ (finishInv_report _ _ _
      (finishInv_sniff [] _ (finishInv_dispatch t _ (finishInv_initState targets prefs))))
  · have hdead : (send_dead_hosts_to_ospd_openvas
        (start_alive_detection .ok t targets prefs []).afterSniff.hosts).2
        = (start_alive_detection .ok t targets prefs
            []).afterSniff.hosts.targethosts.length := by
      rw [hsniff]
      simp [send_dead_hosts_to_ospd_openvas, initState]
    rw [← hdead, start_ok_final, scan_run_final, start_ok_afterSniff, scan_run_afterSniff]
    exact put_finish_mem _ _ (scan_report_deadhost _ _ _)

/-- Witness for C10 at the unhandled combination ICMP + TCP_SYN with two
targets. -/
theorem claim_C10_witness :
    (¬ (⟨false, true, false, false, true⟩ : AliveTest) ∈ handledCombos)
    ∧ ((start_alive_detection .ok ⟨false, true, false, false, true⟩
          ["10.0.0.1", "10.0.0.2"]
          { port_range := none, alive_test_ports := none,
            max_scan_hosts := none, max_alive_hosts := none } []).probes = []
      ∧ (start_alive_detection .ok ⟨false, true, false, false, true⟩
          ["10.0.0.1", "10.0.0.2"]
          { port_range := none, alive_test_ports := none,
            max_scan_hosts := none, max_alive_hosts := none }
          []).afterSniff.hosts.alivehosts = []
      ∧ (start_alive_detection .ok ⟨false, true, false, false, true⟩
          ["10.0.0.1", "10.0.0.2"]
          { port_range := none, alive_test_ports := none,
            max_scan_hosts := none, max_alive_hosts := none }
          []).afterSniff.restrictions.alive_hosts_count = 0
      ∧ (start_alive_detection .ok ⟨false, true, false, false, true⟩
          ["10.0.0.1", "10.0.0.2"]
          { port_range := none, alive_test_ports := none,
            max_scan_hosts := none, max_alive_hosts := none }
          []).final.out.count Artifact.finish = 1
      ∧ Artifact.deadhostMsg
          (start_alive_detection .ok ⟨false, true, false, false, true⟩
            ["10.0.0.1", "10.0.0.2"]
            { port_range := none, alive_test_ports := none,
              max_scan_hosts := none, max_alive_hosts := none }
            []).afterSniff.hosts.targethosts.length
        ∈ (start_alive_detection .ok ⟨false, true, false, false, true⟩
            ["10.0.0.1", "10.0.0.2"]
            { port_range := none, alive_test_ports := none,
              max_scan_hosts := none, max_alive_hosts := none }
            []).final.out) :=
  ⟨by decide, claim_C10_unhandled_combos ⟨false, true, false, false, true⟩
    ["10.0.0.1", "10.0.0.2"]
    { port_range := none, alive_test_ports := none,
      max_scan_hosts := none, max_alive_hosts := none } (by decide)⟩
